import Mathlib

/-!
Verification of the VM lifecycle and resource-allocation core of the
`Gv2-bot` repository (single source file `v2.py`).

The Python source keeps a global registry `data = {"vps": {...}, "admins": [...]}`
(a dict of VM records keyed by a 4-digit id string, plus a list of admin ids),
and mutates it through the slash-command handlers `createvps`, `manage`
(with the `start_cb` / `stop_cb` / `restart_cb` callbacks), `deletevps`,
`reinstallvps`, `renewssh`, `addadmin` and `removeadmin`.

The shallow embedding below models:
  * the registry as an insertion-ordered association list (`Data`), matching
    Python dict semantics (new key appends, assignment to an existing key
    updates in place, `del` removes);
  * every external shell invocation (`run_shell` of `qemu-img`, `qemu`,
    `pgrep`, `pkill`, `tmate`) as an emitted `Effect`, with the outcome of
    each external call supplied by an `Oracle` (the embedding is a function
    of the oracle, the control flow of the code is translated verbatim);
  * the filesystem, where claims need it, as the list of existing file
    paths, updated by folding `applyEffect` over the emitted trace;
  * `random.randint(1000, 9999)` as a supplied list of draws, each draw `r`
    denoting the value `1000 + r % 9000` (which ranges over exactly
    1000..9999); the unbounded `while True` loop of `gen_vps_id` is modelled
    by running it along a finite prefix of the random stream: a `none`
    result means the loop has not returned within that prefix.
-/

namespace Gv2

/-- Configured inclusive lower bound of the local SSH port range
(`SSH_PORT_MIN = 22700` in the source). -/
def SSH_PORT_MIN : Nat := 22700

/-- Configured inclusive upper bound of the local SSH port range
(`SSH_PORT_MAX = 22999` in the source). -/
def SSH_PORT_MAX : Nat := 22999

/-- Working directory for VM artifacts (`WORK_DIR` in the source). -/
def WORK_DIR : String := "/root/vps_manager"

/-- A VM record, with the exact fields stored by `createvps`
(`data["vps"][vps_id] = {...}`).  `user` is stored as the decimal string of
the Discord user id, exactly as `str(interaction.user.id)` does. -/
structure VPSRec where
  id : String
  user : String
  name : String
  ram_mb : Nat
  cpu : Nat
  disk_gb : Nat
  status : String
  local_ssh_port : Nat
  local_ssh : String
  tmate : String
  created_at : String
deriving DecidableEq

/-- The registry: the `data` dict of the source, with `vps` as an
insertion-ordered association list (Python dict) and `admins` as a list. -/
structure Data where
  vps : List (String × VPSRec)
  admins : List Nat
deriving DecidableEq

/-- Default branch of `load_data` when no data file exists:
`{"vps": {}, "admins": [OWNER_ID]}`. -/
def initData (owner : Nat) : Data := { vps := [], admins := [owner] }

/-- The admin test `is_admin(uid)`: `uid in data.get("admins", [])`. -/
def is_admin (d : Data) (uid : Nat) : Bool := d.admins.contains uid

/-- Dict lookup `data["vps"][k]` (as an `Option`, `none` when
`k not in data["vps"]`). -/
def lookupVps (d : Data) (k : String) : Option VPSRec :=
  (d.vps.find? (fun kv => kv.1 == k)).map (fun kv => kv.2)

/-- Assignment to an existing key of the `vps` dict (the callbacks mutate
the looked-up record `v` in place). -/
def updateVps (d : Data) (k : String) (r : VPSRec) : Data :=
  { d with vps := d.vps.map (fun kv => if kv.1 == k then (k, r) else kv) }

/-- Dict deletion `del data["vps"][k]`. -/
def removeVps (d : Data) (k : String) : Data :=
  { d with vps := d.vps.filter (fun kv => kv.1 != k) }

/-- The used-port set of `find_free_ssh_port`:
`{int(v["local_ssh_port"]) for v in data["vps"].values() if v.get("local_ssh_port")}`.
Python truthiness of an int field is `!= 0`. -/
def usedPorts (d : Data) : List Nat :=
  d.vps.filterMap (fun kv =>
    if kv.2.local_ssh_port != 0 then some kv.2.local_ssh_port else none)

/-- The single allocation failure of the source
(`raise RuntimeError("No free SSH ports available")`). -/
inductive AllocError where
  | noFreePorts
deriving DecidableEq

/-- The ascending scan `for p in range(MIN, MAX + 1): if p not in used: return p`,
parameterised by the start of the remaining range and the number of ports
left to scan; `none` is the fall-through to the `raise`. -/
def scanPorts (used : List Nat) : Nat → Nat → Option Nat
  | _, 0 => none
  | lo, n + 1 => if used.contains lo then scanPorts used (lo + 1) n else some lo

/-- The allocator `find_free_ssh_port()`: scan `[SSH_PORT_MIN, SSH_PORT_MAX]` ascending for
the first port not in the used set; raise (here: return an error) when the
whole range is occupied. -/
def find_free_ssh_port (d : Data) : Except AllocError Nat :=
  match scanPorts (usedPorts d) SSH_PORT_MIN (SSH_PORT_MAX + 1 - SSH_PORT_MIN) with
  | some p => Except.ok p
  | none => Except.error AllocError.noFreePorts

/-- The ascending list of ports in the configured range, for stating
exhaustion hypotheses decidably. -/
def portList : List Nat :=
  (List.range (SSH_PORT_MAX + 1 - SSH_PORT_MIN)).map (fun k => k + SSH_PORT_MIN)

/-- One draw of `random.randint(1000, 9999)` as the id string it yields:
draw `r` denotes `str(1000 + r % 9000)`, which ranges over exactly the
4-digit decimal strings "1000".."9999". -/
def vidOfDraw (r : Nat) : String := toString (1000 + r % 9000)

/-- The id generator `gen_vps_id()` run along a finite prefix `draws` of the random stream:
the `while True` loop returns the first generated id not already a key of
the `vps` dict; `none` means the loop has not returned within `draws`. -/
def gen_vps_id_run (ids : List String) (draws : List Nat) : Option String :=
  (draws.map vidOfDraw).find? (fun vid => !ids.contains vid)

/-- The keys of the `vps` dict (`vid not in data["vps"]` tests these). -/
def vpsIds (d : Data) : List String := d.vps.map (fun kv => kv.1)

/-- An external side effect attempted through `run_shell` / `os.remove` /
`save_data`.  The `ok` flag on `diskCreate` / `vmLaunch` records the exit
status reported for that invocation. -/
inductive Effect where
  | diskCreate (path : String) (sizeGb : Nat) (ok : Bool)
  | vmLaunch (name : String) (ram cpu port : Nat) (ok : Bool)
  | pgrep (name : String)
  | pkill (name : String)
  | removeFile (path : String)
  | tmateRun (name : String)
  | save
deriving DecidableEq

/-- Outcomes of the external tool invocations of one operation: exit status
of `qemu-img create`, of the `qemu` launch, the `pgrep` liveness answer,
and the outcome of the tmate session setup. -/
structure Oracle where
  imgCreateOk : Bool
  launchOk : Bool
  running : Bool
  tmateOk : Bool
  tmateStr : String
deriving DecidableEq

/-- The per-VM artifact paths of `vm_paths(vm_name)`. -/
structure VmPaths where
  qcow : String
  log : String
  tmate_file : String
  script : String
deriving DecidableEq

/-- The path table `vm_paths(vm_name)` from the source. -/
def vm_paths (vm_name : String) : VmPaths :=
  { qcow := WORK_DIR ++ "/" ++ vm_name ++ ".qcow2"
  , log := WORK_DIR ++ "/" ++ vm_name ++ "_log.txt"
  , tmate_file := WORK_DIR ++ "/" ++ vm_name ++ "_tmate.txt"
  , script := WORK_DIR ++ "/create_" ++ vm_name ++ ".sh" }

/-- The per-VM tmate socket path `/tmp/tmate_<vm_name>.sock`. -/
def tmateSock (vm_name : String) : String := "/tmp/tmate_" ++ vm_name ++ ".sock"

/-- The process creator `create_vm_process(vm_name, ram_mb, cpu, disk_gb, ssh_port)`:
run `qemu-img create` (abort on nonzero exit), then launch a detached
`qemu-system-x86_64` with the given RAM/CPU, the qcow path and a hostfwd of
`ssh_port` to guest 22 (abort on nonzero exit).  Returns
(success, trace of invocations, message). -/
def create_vm_process (o : Oracle) (vm_name : String) (ram_mb cpu disk_gb ssh_port : Nat) :
    Bool × List Effect × String :=
  let qcow := (vm_paths vm_name).qcow
  if o.imgCreateOk = false then
    (false, [Effect.diskCreate qcow disk_gb false], "qemu-img failed")
  else if o.launchOk = false then
    (false, [Effect.diskCreate qcow disk_gb true,
             Effect.vmLaunch vm_name ram_mb cpu ssh_port false], "qemu launch failed")
  else
    (true, [Effect.diskCreate qcow disk_gb true,
            Effect.vmLaunch vm_name ram_mb cpu ssh_port true],
      "VM launched, logs: " ++ (vm_paths vm_name).log)

/-- The session helper `generate_tmate(vm_name)`: remove the stale info file and socket, start
a detached tmate session and query its connection string (direct, falling
back to web); best-effort.  Returns (success, trace, string). -/
def generate_tmate (o : Oracle) (vm_name : String) : Bool × List Effect × String :=
  let paths := vm_paths vm_name
  let pre := [Effect.removeFile paths.tmate_file,
              Effect.removeFile (tmateSock vm_name), Effect.tmateRun vm_name]
  if o.tmateOk then (true, pre, o.tmateStr) else (false, pre, "tmate failed")

/-- Result of `createvps`. -/
inductive CreateRes where
  | noFreePorts
  | vmFail (msg : String)
  | created (vps_id : String) (port : Nat)
deriving DecidableEq

/-- The `/createvps` handler: generate a fresh id, allocate the lowest free
port (abort on exhaustion), create the disk and launch the VM (abort on
failure), best-effort tmate, then insert the new record and `save_data`.
The `none` result propagates a non-returning `gen_vps_id` loop. -/
def createvps (o : Oracle) (draws : List Nat) (caller : Nat) (name : String)
    (ram cpu disk : Nat) (now : String) (d : Data) :
    Option (Data × List Effect × CreateRes) :=
  (gen_vps_id_run (vpsIds d) draws).map (fun vps_id =>
    let vm_name := name ++ "-" ++ vps_id
    match find_free_ssh_port d with
    | Except.error _ => (d, [], CreateRes.noFreePorts)
    | Except.ok local_port =>
      let c := create_vm_process o vm_name ram cpu disk local_port
      if c.1 = false then (d, c.2.1, CreateRes.vmFail c.2.2)
      else
        let t := generate_tmate o vm_name
        let tmate_str := if t.1 then t.2.2 else "Failed to generate tmate link: " ++ t.2.2
        let newRec : VPSRec :=
          { id := vps_id, user := toString caller, name := vm_name
          , ram_mb := ram, cpu := cpu, disk_gb := disk, status := "Running"
          , local_ssh_port := local_port
          , local_ssh := "ssh ubuntu@localhost -p " ++ toString local_port
          , tmate := tmate_str, created_at := now }
        ({ d with vps := d.vps ++ [(vps_id, newRec)] },
          c.2.1 ++ t.2.1 ++ [Effect.save], CreateRes.created vps_id local_port))

/-- Result of the `/manage` handler itself (the panel with the
start/stop/restart/ssh-info buttons is only built past both guards). -/
inductive ManageRes where
  | notFound
  | notAuthorized
  | panel
deriving DecidableEq

/-- The `/manage` handler up to showing the management panel: unknown id is
rejected, then a caller who is neither the owner of the record nor an admin is
rejected before any button (start/stop/restart/ssh-info) exists. -/
def manage (d : Data) (caller : Nat) (vps_id : String) : Data × List Effect × ManageRes :=
  match lookupVps d vps_id with
  | none => (d, [], ManageRes.notFound)
  | some v =>
    if v.user != toString caller && !is_admin d caller then (d, [], ManageRes.notAuthorized)
    else (d, [], ManageRes.panel)

/-- Result of the `start_cb` callback. -/
inductive StartRes where
  | notFound
  | alreadyRunning
  | startFailed (msg : String)
  | started
deriving DecidableEq

/-- The `start_cb` callback of `/manage`: `pgrep` for a matching qemu
process; if found, mark Running and save (no-op success); otherwise run
`create_vm_process` with the stored specs and the stored
`local_ssh_port`; on success mark Running and save, on failure return with
the registry untouched. -/
def start_cb (o : Oracle) (d : Data) (vps_id : String) : Data × List Effect × StartRes :=
  match lookupVps d vps_id with
  | none => (d, [], StartRes.notFound)
  | some v =>
    if o.running then
      (updateVps d vps_id { v with status := "Running" },
        [Effect.pgrep v.name, Effect.save], StartRes.alreadyRunning)
    else
      let c := create_vm_process o v.name v.ram_mb v.cpu v.disk_gb v.local_ssh_port
      if c.1 = false then (d, Effect.pgrep v.name :: c.2.1, StartRes.startFailed c.2.2)
      else
        (updateVps d vps_id { v with status := "Running" },
          Effect.pgrep v.name :: (c.2.1 ++ [Effect.save]), StartRes.started)

/-- Result of the `stop_cb` callback. -/
inductive StopRes where
  | notFound
  | stopped
deriving DecidableEq

/-- The `stop_cb` callback of `/manage`: `pkill` the named qemu process
(best-effort), mark Stopped, save. -/
def stop_cb (d : Data) (vps_id : String) : Data × List Effect × StopRes :=
  match lookupVps d vps_id with
  | none => (d, [], StopRes.notFound)
  | some v =>
    (updateVps d vps_id { v with status := "Stopped" },
      [Effect.pkill v.name, Effect.save], StopRes.stopped)

/-- The `restart_cb` callback: `stop_cb`, a fixed delay, then `start_cb`. -/
def restart_cb (o : Oracle) (d : Data) (vps_id : String) : Data × List Effect × StartRes :=
  let s := stop_cb d vps_id
  let t := start_cb o s.1 vps_id
  (t.1, s.2.1 ++ t.2.1, t.2.2)

/-- Result of `/deletevps`. -/
inductive DeleteRes where
  | notFound
  | notAuthorized
  | deleted
deriving DecidableEq

/-- The `/deletevps` handler: guards, then `pkill`, removal of the qcow,
log, tmate-info, script and socket files (best-effort), removal of the
record from the dict, and `save_data`. -/
def deletevps (d : Data) (caller : Nat) (vps_id : String) : Data × List Effect × DeleteRes :=
  match lookupVps d vps_id with
  | none => (d, [], DeleteRes.notFound)
  | some v =>
    if v.user != toString caller && !is_admin d caller then (d, [], DeleteRes.notAuthorized)
    else
      let paths := vm_paths v.name
      (removeVps d vps_id,
        [Effect.pkill v.name, Effect.removeFile paths.qcow, Effect.removeFile paths.log,
         Effect.removeFile paths.tmate_file, Effect.removeFile paths.script,
         Effect.removeFile (tmateSock v.name), Effect.save], DeleteRes.deleted)

/-- Result of `/reinstallvps`. -/
inductive ReinstallRes where
  | notFound
  | notAuthorized
  | noFreePorts
  | reinstallFailed (msg : String)
  | reinstalled
deriving DecidableEq

/-- The `/reinstallvps` handler: guards, `pkill`, remove the qcow file,
take `v.get("local_ssh_port") or find_free_ssh_port()` (the stored port
when truthy), rerun `create_vm_process` with the stored specs, and on
success store the port, the ssh string and status Running, then save. -/
def reinstallvps (o : Oracle) (d : Data) (caller : Nat) (vps_id : String) :
    Data × List Effect × ReinstallRes :=
  match lookupVps d vps_id with
  | none => (d, [], ReinstallRes.notFound)
  | some v =>
    if v.user != toString caller && !is_admin d caller then (d, [], ReinstallRes.notAuthorized)
    else
      let paths := vm_paths v.name
      let pre := [Effect.pkill v.name, Effect.removeFile paths.qcow]
      match (if v.local_ssh_port != 0 then Except.ok v.local_ssh_port
             else find_free_ssh_port d) with
      | Except.error _ => (d, pre, ReinstallRes.noFreePorts)
      | Except.ok local_port =>
        let c := create_vm_process o v.name v.ram_mb v.cpu v.disk_gb local_port
        if c.1 = false then (d, pre ++ c.2.1, ReinstallRes.reinstallFailed c.2.2)
        else
          (updateVps d vps_id { v with
              local_ssh_port := local_port
            , local_ssh := "ssh ubuntu@localhost -p " ++ toString local_port
            , status := "Running" },
            pre ++ c.2.1 ++ [Effect.save], ReinstallRes.reinstalled)

/-- Result of `/renewssh`. -/
inductive RenewRes where
  | notFound
  | notAuthorized
  | noFreePorts
  | renewFailed (msg : String)
  | renewed (port : Nat)
deriving DecidableEq

/-- The `/renewssh` handler: guards, allocate a new port (abort on
exhaustion), `pkill` the VM and relaunch it via `create_vm_process` with
the new port (abort on failure), regenerate tmate best-effort, store the
new port / ssh string / tmate / status Running, save. -/
def renewssh (o : Oracle) (d : Data) (caller : Nat) (vps_id : String) :
    Data × List Effect × RenewRes :=
  match lookupVps d vps_id with
  | none => (d, [], RenewRes.notFound)
  | some v =>
    if v.user != toString caller && !is_admin d caller then (d, [], RenewRes.notAuthorized)
    else
      match find_free_ssh_port d with
      | Except.error _ => (d, [], RenewRes.noFreePorts)
      | Except.ok new_port =>
        let c := create_vm_process o v.name v.ram_mb v.cpu v.disk_gb new_port
        if c.1 = false then (d, Effect.pkill v.name :: c.2.1, RenewRes.renewFailed c.2.2)
        else
          let t := generate_tmate o v.name
          let tstr := if t.1 then t.2.2 else "Failed to generate tmate: " ++ t.2.2
          (updateVps d vps_id { v with
              local_ssh_port := new_port
            , local_ssh := "ssh ubuntu@localhost -p " ++ toString new_port
            , tmate := tstr
            , status := "Running" },
            Effect.pkill v.name :: (c.2.1 ++ t.2.1 ++ [Effect.save]), RenewRes.renewed new_port)

/-- Result of `/addadmin` and `/removeadmin`. -/
inductive AdminRes where
  | notOwner
  | alreadyAdmin
  | notAdmin
  | cannotRemoveOwner
  | ok
deriving DecidableEq

/-- The `/addadmin` handler: only the fixed `OWNER_ID` may call it; a user
already in the admin list is rejected; otherwise append and save. -/
def addadmin (owner caller u : Nat) (d : Data) : Data × AdminRes :=
  if caller != owner then (d, AdminRes.notOwner)
  else if d.admins.contains u then (d, AdminRes.alreadyAdmin)
  else ({ d with admins := d.admins ++ [u] }, AdminRes.ok)

/-- The `/removeadmin` handler: only the owner may call it; removing the
owner is rejected; removing a non-admin is rejected; otherwise
`list.remove` (first occurrence) and save. -/
def removeadmin (owner caller u : Nat) (d : Data) : Data × AdminRes :=
  if caller != owner then (d, AdminRes.notOwner)
  else if u == owner then (d, AdminRes.cannotRemoveOwner)
  else if !d.admins.contains u then (d, AdminRes.notAdmin)
  else ({ d with admins := d.admins.erase u }, AdminRes.ok)

/-- The observable contents of the data file during `save_data(data)`:
the previous contents, then the empty file (because `open(DATA_FILE, "w")`
truncates on open), then the newly serialised state written by
`json.dump`.  There is no temporary path and no rename in the source. -/
def save_data_states (old new : String) : List String := [old, "", new]

/-- Atomicity of a write from the perspective of a subsequent `load`: every
observable intermediate content of the data file is either the old or the
new serialised state. -/
def AtomicForLoad (old new : String) (states : List String) : Prop :=
  ∀ s ∈ states, s = old ∨ s = new

/-- Filesystem semantics of a trace entry: a successful `qemu-img create`
makes the path exist, `os.remove` makes it not exist (best-effort removal
of a missing file is a no-op), other invocations do not change which files
exist. -/
def applyEffect (fs : List String) : Effect → List String
  | Effect.diskCreate p _ true => if fs.contains p then fs else p :: fs
  | Effect.diskCreate _ _ false => fs
  | Effect.removeFile p => fs.filter (fun q => q != p)
  | _ => fs

/-- Fold a whole trace over the filesystem. -/
def applyEffects (fs : List String) (effs : List Effect) : List String :=
  effs.foldl applyEffect fs

/-- One mutating operation of the bot, relating a registry state to its
successor; parameters (caller, oracle outcomes, random draws, arguments)
are arbitrary. -/
inductive Step (owner : Nat) : Data → Data → Prop
  | create (o : Oracle) (draws : List Nat) (caller : Nat) (name : String)
      (ram cpu disk : Nat) (now : String) (d : Data)
      (t : Data × List Effect × CreateRes)
      (h : createvps o draws caller name ram cpu disk now d = some t) :
      Step owner d t.1
  | start (o : Oracle) (d : Data) (vid : String) : Step owner d (start_cb o d vid).1
  | stop (d : Data) (vid : String) : Step owner d (stop_cb d vid).1
  | restart (o : Oracle) (d : Data) (vid : String) : Step owner d (restart_cb o d vid).1
  | reinstall (o : Oracle) (d : Data) (caller : Nat) (vid : String) :
      Step owner d (reinstallvps o d caller vid).1
  | renew (o : Oracle) (d : Data) (caller : Nat) (vid : String) :
      Step owner d (renewssh o d caller vid).1
  | del (d : Data) (caller : Nat) (vid : String) : Step owner d (deletevps d caller vid).1
  | addA (d : Data) (caller u : Nat) : Step owner d (addadmin owner caller u d).1
  | removeA (d : Data) (caller u : Nat) : Step owner d (removeadmin owner caller u d).1

/-- States reachable from the initial registry by the lifecycle and admin
operations. -/
def Reachable (owner : Nat) (d : Data) : Prop :=
  Relation.ReflTransGen (Step owner) (initData owner) d

/-- All 4-digit decimal id strings "1000".."9999": the id space of
`gen_vps_id`. -/
def allFourDigitIds : List String := (List.range 9000).map (fun k => toString (1000 + k))

/-- The `gen_vps_id` loop never returns on this registry: along every
finite prefix of the random stream it produces no id. -/
def GenLoops (ids : List String) : Prop :=
  ∀ draws : List Nat, gen_vps_id_run ids draws = none

/-- A successful `scanPorts` result is in range, free, and every smaller
in-range port is occupied. -/
theorem scanPorts_some_spec (used : List Nat) :
    ∀ n lo p, scanPorts used lo n = some p →
      lo ≤ p ∧ p < lo + n ∧ used.contains p = false ∧
      ∀ q, lo ≤ q → q < p → used.contains q = true := by
  intro n
  induction n with
  | zero => intro lo p h; simp [scanPorts] at h
  | succ n ih =>
    intro lo p h
    rw [scanPorts] at h
    by_cases hc : used.contains lo = true
    · rw [if_pos hc] at h
      obtain ⟨h1, h2, h3, h4⟩ := ih (lo + 1) p h
      refine ⟨by omega, by omega, h3, fun q hq1 hq2 => ?_⟩
      rcases Nat.lt_or_ge q (lo + 1) with hq | hq
      · have hql : q = lo := by omega
        rw [hql]; exact hc
      · exact h4 q hq hq2
    · rw [if_neg hc] at h
      injection h with h
      subst h
      exact ⟨Nat.le_refl _, by omega, by simpa using hc, fun q hq1 hq2 => by omega⟩

/-- When every port of the scanned range is occupied, `scanPorts` falls
through. -/
theorem scanPorts_none_spec (used : List Nat) :
    ∀ n lo, (∀ q, lo ≤ q → q < lo + n → used.contains q = true) →
      scanPorts used lo n = none := by
  intro n
  induction n with
  | zero => intro lo _; rfl
  | succ n ih =>
    intro lo h
    rw [scanPorts, if_pos (h lo (Nat.le_refl _) (by omega))]
    exact ih (lo + 1) (fun q h1 h2 => h q (by omega) (by omega))

/-- Membership in the configured port range list. -/
theorem mem_portList (q : Nat) : q ∈ portList ↔ SSH_PORT_MIN ≤ q ∧ q ≤ SSH_PORT_MAX := by
  unfold portList SSH_PORT_MIN SSH_PORT_MAX
  simp only [List.mem_map, List.mem_range]
  constructor
  · rintro ⟨k, hk, rfl⟩; omega
  · rintro ⟨h1, h2⟩; exact ⟨q - 22700, by omega, by omega⟩

/-- A port is in the used set iff it is nonzero and is the
`local_ssh_port` of some current record. -/
theorem mem_usedPorts (d : Data) (p : Nat) :
    p ∈ usedPorts d ↔ p ≠ 0 ∧ ∃ kv ∈ d.vps, kv.2.local_ssh_port = p := by
  unfold usedPorts
  rw [List.mem_filterMap]
  constructor
  · rintro ⟨kv, hkv, hf⟩
    by_cases h0 : kv.2.local_ssh_port = 0
    · simp [h0] at hf
    · simp only [bne_iff_ne, ne_eq, h0, not_false_eq_true, if_pos, Option.some.injEq] at hf
      subst hf
      exact ⟨h0, kv, hkv, rfl⟩
  · rintro ⟨h0, kv, hkv, hp⟩
    refine ⟨kv, hkv, ?_⟩
    rw [hp]
    simp [h0]

/-- The `gen_vps_id` loop never returns once every 4-digit id is a key of
the registry: each draw generates an id in "1000".."9999", all of which
are occupied. -/
theorem gen_run_full_none : GenLoops allFourDigitIds := by
  intro draws
  unfold gen_vps_id_run
  rw [List.find?_eq_none]
  intro vid hvid
  simp only [List.mem_map] at hvid
  obtain ⟨r, _, rfl⟩ := hvid
  have hmem : vidOfDraw r ∈ allFourDigitIds := by
    unfold allFourDigitIds vidOfDraw
    exact List.mem_map.2 ⟨r % 9000, List.mem_range.2 (Nat.mod_lt _ (by omega)), rfl⟩
  simp [hmem]

end Gv2

namespace Gv2

theorem manage_fst (d caller vid) : (manage d caller vid).1 = d := by
  unfold manage
  split
  · rfl
  · split
    · rfl
    · rfl

theorem start_cb_admins (o d vid) : (start_cb o d vid).1.admins = d.admins := by
  unfold start_cb
  split
  · rfl
  · dsimp only
    split
    · rfl
    · split
      · rfl
      · rfl

theorem stop_cb_admins (d vid) : (stop_cb d vid).1.admins = d.admins := by
  unfold stop_cb
  split
  · rfl
  · rfl

theorem restart_cb_admins (o d vid) : (restart_cb o d vid).1.admins = d.admins := by
  unfold restart_cb
  dsimp only
  rw [start_cb_admins, stop_cb_admins]

theorem deletevps_admins (d caller vid) : (deletevps d caller vid).1.admins = d.admins := by
  unfold deletevps
  split
  · rfl
  · split
    · rfl
    · rfl

theorem reinstallvps_admins (o d caller vid) : (reinstallvps o d caller vid).1.admins = d.admins := by
  unfold reinstallvps
  split
  · rfl
  · split
    · rfl
    · dsimp only
      split
      · rfl
      · split
        · rfl
        · rfl

theorem renewssh_admins (o d caller vid) : (renewssh o d caller vid).1.admins = d.admins := by
  unfold renewssh
  split
  · rfl
  · split
    · rfl
    · split
      · rfl
      · dsimp only
        split
        · rfl
        · rfl

theorem createvps_admins (o draws caller name ram cpu disk now d t)
    (h : createvps o draws caller name ram cpu disk now d = some t) :
    t.1.admins = d.admins := by
  unfold createvps at h
  cases hg : gen_vps_id_run (vpsIds d) draws with
  | none => rw [hg] at h; simp at h
  | some vid =>
    rw [hg] at h
    simp only [Option.map_some'] at h
    injection h with h
    subst h
    split
    · rfl
    · split
      · rfl
      · rfl

end Gv2

namespace Gv2

def AdminInv (owner : Nat) (d : Data) : Prop :=
  owner ∈ d.admins ∧ d.admins.Nodup

theorem addadmin_adminInv {owner d} (caller u : Nat) (hv : AdminInv owner d) :
    AdminInv owner (addadmin owner caller u d).1 := by
  obtain ⟨hm, hn⟩ := hv
  unfold addadmin
  by_cases h1 : (caller != owner) = true
  · simp only [h1, if_pos]; exact ⟨hm, hn⟩
  · simp only [h1, if_neg, Bool.false_eq_true, not_false_eq_true]
    by_cases h2 : d.admins.contains u = true
    · simp only [h2, if_pos]; exact ⟨hm, hn⟩
    · simp only [h2, if_neg, Bool.false_eq_true, not_false_eq_true]
      refine ⟨List.mem_append_left _ hm, ?_⟩
      rw [List.nodup_append]
      refine ⟨hn, List.nodup_singleton u, ?_⟩
      intro a ha hb
      simp only [List.mem_singleton] at hb
      subst hb
      have h2m : a ∉ d.admins := by simpa using h2
      exact h2m ha

theorem removeadmin_adminInv {owner d} (caller u : Nat) (hv : AdminInv owner d) :
    AdminInv owner (removeadmin owner caller u d).1 := by
  obtain ⟨hm, hn⟩ := hv
  unfold removeadmin
  by_cases h1 : (caller != owner) = true
  · simp only [h1, if_pos]; exact ⟨hm, hn⟩
  · simp only [h1, if_neg, Bool.false_eq_true, not_false_eq_true]
    by_cases h2 : (u == owner) = true
    · simp only [h2, if_pos]; exact ⟨hm, hn⟩
    · simp only [h2, if_neg, Bool.false_eq_true, not_false_eq_true]
      by_cases h3 : (!d.admins.contains u) = true
      · simp only [h3, if_pos]; exact ⟨hm, hn⟩
      · simp only [h3, if_neg, Bool.false_eq_true, not_false_eq_true]
        have hne : owner ≠ u := by
          intro he
          exact h2 (by simp [he])
        exact ⟨(List.mem_erase_of_ne hne).2 hm, hn.erase u⟩

theorem step_preserves_adminInv {owner : Nat} {d d' : Data}
    (h : Step owner d d') (hv : AdminInv owner d) : AdminInv owner d' := by
  cases h with
  | create o draws caller name ram cpu disk now d t hc =>
    unfold AdminInv at hv ⊢
    rw [createvps_admins o draws caller name ram cpu disk now d t hc]
    exact hv
  | start o d vid =>
    unfold AdminInv at hv ⊢
    rw [start_cb_admins]
    exact hv
  | stop d vid =>
    unfold AdminInv at hv ⊢
    rw [stop_cb_admins]
    exact hv
  | restart o d vid =>
    unfold AdminInv at hv ⊢
    rw [restart_cb_admins]
    exact hv
  | reinstall o d caller vid =>
    unfold AdminInv at hv ⊢
    rw [reinstallvps_admins]
    exact hv
  | renew o d caller vid =>
    unfold AdminInv at hv ⊢
    rw [renewssh_admins]
    exact hv
  | del d caller vid =>
    unfold AdminInv at hv ⊢
    rw [deletevps_admins]
    exact hv
  | addA d caller u => exact addadmin_adminInv caller u hv
  | removeA d caller u => exact removeadmin_adminInv caller u hv

theorem reachable_adminInv {owner : Nat} {d : Data} (h : Reachable owner d) :
    AdminInv owner d := by
  unfold Reachable at h
  induction h with
  | refl => exact ⟨by simp [initData], by simp [initData]⟩
  | tail hs hstep ih => exact step_preserves_adminInv hstep ih

end Gv2

namespace Gv2

theorem find_free_eq_ok {d : Data} {p : Nat} (h : find_free_ssh_port d = Except.ok p) :
    scanPorts (usedPorts d) SSH_PORT_MIN (SSH_PORT_MAX + 1 - SSH_PORT_MIN) = some p := by
  unfold find_free_ssh_port at h
  cases hs : scanPorts (usedPorts d) SSH_PORT_MIN (SSH_PORT_MAX + 1 - SSH_PORT_MIN) with
  | none => rw [hs] at h; exact Except.noConfusion h
  | some q => rw [hs] at h; injection h with h; rw [h]

/-- Claim C2: for every registry state, port allocation returns the
smallest port in the inclusive range `[22700, 22999]` that is not the
`local_ssh_port` of any currently existing VM record, and when every port
of the range is the port of a current record it fails with the
no-free-ports allocation error.  `find_free_ssh_port` only reads the
registry (its type returns no new state), so no record is mutated. -/
theorem find_free_ssh_port_spec :
    (∀ (d : Data) (p : Nat), find_free_ssh_port d = Except.ok p →
       SSH_PORT_MIN ≤ p ∧ p ≤ SSH_PORT_MAX ∧
       (∀ kv ∈ d.vps, kv.2.local_ssh_port ≠ p) ∧
       (∀ q, SSH_PORT_MIN ≤ q → q < p → ∃ kv ∈ d.vps, kv.2.local_ssh_port = q)) ∧
    (∀ d : Data, (∀ q ∈ portList, ∃ kv ∈ d.vps, kv.2.local_ssh_port = q) →
       find_free_ssh_port d = Except.error AllocError.noFreePorts) := by
  constructor
  · intro d p h
    obtain ⟨h1, h2, h3, h4⟩ := scanPorts_some_spec _ _ _ _ (find_free_eq_ok h)
    have h1n : (22700 : Nat) ≤ p := h1
    have h2n : p < 22700 + (22999 + 1 - 22700) := h2
    refine ⟨h1, by show p ≤ 22999; omega, ?_, ?_⟩
    · intro kv hkv hp
      have hmem : p ∈ usedPorts d := (mem_usedPorts d p).2 ⟨by omega, kv, hkv, hp⟩
      have hc : (usedPorts d).contains p = true := by simpa using hmem
      rw [h3] at hc
      exact Bool.false_ne_true hc
    · intro q hq1 hq2
      have hmem : q ∈ usedPorts d := by simpa using h4 q hq1 hq2
      exact ((mem_usedPorts d q).1 hmem).2
  · intro d h
    have hn : scanPorts (usedPorts d) SSH_PORT_MIN (SSH_PORT_MAX + 1 - SSH_PORT_MIN) = none := by
      apply scanPorts_none_spec
      intro q h1 h2
      have h1n : (22700 : Nat) ≤ q := h1
      have h2n : q < 22700 + (22999 + 1 - 22700) := h2
      have hq : q ∈ portList := (mem_portList q).2 ⟨h1, by show q ≤ 22999; omega⟩
      obtain ⟨kv, hkv, hp⟩ := h q hq
      have hmem : q ∈ usedPorts d := (mem_usedPorts d q).2 ⟨by omega, kv, hkv, hp⟩
      simpa using hmem
    unfold find_free_ssh_port
    rw [hn]

end Gv2

namespace Gv2

/-- A concrete record occupying port `p` (shape of records written by
`createvps`). -/
def recOfPort (p : Nat) : VPSRec :=
  { id := toString p, user := "7", name := "w-" ++ toString p, ram_mb := 1024, cpu := 1
  , disk_gb := 10, status := "Running", local_ssh_port := p
  , local_ssh := "", tmate := "", created_at := "t0" }

/-- A registry with ports 22700 and 22701 occupied. -/
def dTwo : Data :=
  { vps := [("1000", recOfPort 22700), ("1001", recOfPort 22701)], admins := [1] }

/-- A registry occupying every port of the configured range. -/
def dFull : Data :=
  { vps := portList.map (fun p => (toString p, recOfPort p)), admins := [1] }

theorem dFull_all_used : ∀ q ∈ portList, ∃ kv ∈ dFull.vps, kv.2.local_ssh_port = q := by
  intro q hq
  exact ⟨(toString q, recOfPort q), List.mem_map.2 ⟨q, hq, rfl⟩, rfl⟩

/-- Witness for C2: on a registry occupying 22700 and 22701 the allocator
returns 22702 and the minimality conclusions hold there; on a registry
occupying the whole range it fails with the no-free-ports error. -/
theorem find_free_ssh_port_spec_w :
    (SSH_PORT_MIN ≤ 22702 ∧ 22702 ≤ SSH_PORT_MAX ∧
      (∀ kv ∈ dTwo.vps, kv.2.local_ssh_port ≠ 22702) ∧
      (∀ q, SSH_PORT_MIN ≤ q → q < 22702 → ∃ kv ∈ dTwo.vps, kv.2.local_ssh_port = q)) ∧
    find_free_ssh_port dFull = Except.error AllocError.noFreePorts :=
  ⟨find_free_ssh_port_spec.1 dTwo 22702 rfl,
   find_free_ssh_port_spec.2 dFull dFull_all_used⟩

/-- A registry whose id keys are all 4-digit decimal ids. -/
def dIdsFull : Data :=
  { vps := allFourDigitIds.map (fun s => (s, recOfPort 0)), admins := [1] }

theorem vpsIds_dIdsFull : vpsIds dIdsFull = allFourDigitIds := by
  unfold vpsIds dIdsFull
  simp only [List.map_map]
  exact List.map_id allFourDigitIds

theorem genLoops_dIdsFull : GenLoops (vpsIds dIdsFull) := by
  rw [vpsIds_dIdsFull]
  exact gen_run_full_none

/-- Claim C6 counterexample: on the concrete registry whose records occupy
every 4-digit id, the `gen_vps_id` loop does not terminate (along every
finite prefix of the random stream it produces nothing) and, the source
having no guard at all, no allocation error is ever raised. -/
theorem gen_vps_id_cex : GenLoops (vpsIds dIdsFull) := genLoops_dIdsFull

/-- Claim C6 (amended): id allocation retries random 4-digit decimal
identifiers, and any identifier it returns is absent from current records;
but it is not guarded against exhaustion: when every possible id already
belongs to a record the loop runs forever (no prefix of the random stream
makes it return) instead of failing with an allocation error. -/
theorem gen_vps_id_spec :
    (∀ (ids : List String) (draws : List Nat) (vid : String),
       gen_vps_id_run ids draws = some vid → ids.contains vid = false) ∧
    GenLoops (vpsIds dIdsFull) := by
  refine ⟨?_, genLoops_dIdsFull⟩
  intro ids draws vid h
  have hp := List.find?_some h
  simpa using hp

/-- Witness for C6: on the empty initial registry with draw 0 the loop
returns "1000", an id not among the current (no) records. -/
theorem gen_vps_id_spec_w : (vpsIds (initData 1)).contains "1000" = false :=
  gen_vps_id_spec.1 (vpsIds (initData 1)) [0] "1000" (by decide)

/-- Claim C9: in every state reachable from the initial registry by the
lifecycle and admin operations, the fixed owner identity is a member of the
admin set; and `removeadmin` applied to the owner is always rejected with
the registry unchanged, whoever the caller is (including the owner). -/
theorem owner_admin_invariant (owner : Nat) (d : Data) (h : Reachable owner d) :
    owner ∈ d.admins ∧
    ∀ caller : Nat, (removeadmin owner caller owner d).1 = d ∧
      (removeadmin owner caller owner d).2 ≠ AdminRes.ok := by
  refine ⟨(reachable_adminInv h).1, fun caller => ?_⟩
  unfold removeadmin
  by_cases h1 : (caller != owner) = true
  · rw [if_pos h1]
    exact ⟨rfl, fun hc => AdminRes.noConfusion hc⟩
  · rw [if_neg h1]
    rw [if_pos (by simp : (owner == owner) = true)]
    exact ⟨rfl, fun hc => AdminRes.noConfusion hc⟩

/-- Witness for C9: the initial registry is reachable; there the owner is
an admin and removing the owner (called by a non-owner, and the rejection
equally returned for the owner caller by the theorem) leaves the registry
unchanged. -/
theorem owner_admin_invariant_w :
    (1 : Nat) ∈ (initData 1).admins ∧
    (removeadmin 1 1 1 (initData 1)).1 = initData 1 ∧
    (removeadmin 1 1 1 (initData 1)).2 ≠ AdminRes.ok := by
  have h := owner_admin_invariant 1 (initData 1) Relation.ReflTransGen.refl
  exact ⟨h.1, h.2 1⟩

/-- Claim C10: in every reachable state the admin list holds no duplicate
identity; `addadmin` rejects a user already present; and a successful
`removeadmin` leaves the removed user no longer a member (the single entry
is removed). -/
theorem admins_nodup_spec (owner : Nat) (d : Data) (h : Reachable owner d) :
    d.admins.Nodup ∧
    (∀ u, u ∈ d.admins → (addadmin owner owner u d).2 = AdminRes.alreadyAdmin) ∧
    (∀ (caller u : Nat) (d2 : Data),
       removeadmin owner caller u d = (d2, AdminRes.ok) → u ∉ d2.admins) := by
  have hn := (reachable_adminInv h).2
  refine ⟨hn, ?_, ?_⟩
  · intro u hu
    unfold addadmin
    rw [if_neg (by simp)]
    rw [if_pos (by simpa using hu)]
  · intro caller u d2 heq
    unfold removeadmin at heq
    by_cases h1 : (caller != owner) = true
    · rw [if_pos h1] at heq
      injection heq with he1 he2
      exact absurd he2 (fun hc => AdminRes.noConfusion hc)
    · rw [if_neg h1] at heq
      by_cases h2 : (u == owner) = true
      · rw [if_pos h2] at heq
        injection heq with he1 he2
        exact absurd he2 (fun hc => AdminRes.noConfusion hc)
      · rw [if_neg h2] at heq
        by_cases h3 : (!d.admins.contains u) = true
        · rw [if_pos h3] at heq
          injection heq with he1 he2
          exact absurd he2 (fun hc => AdminRes.noConfusion hc)
        · rw [if_neg h3] at heq
          injection heq with he1 he2
          subst he1
          exact hn.not_mem_erase

/-- Witness for C10: from the initial registry, the owner adds admin 2
(a reachable state with admins [1, 2]); a successful removal of 2 leaves 2
no longer a member. -/
theorem admins_nodup_spec_w : (2 : Nat) ∉ (Data.mk [] [1]).admins := by
  have hstep : Step 1 (initData 1) (addadmin 1 1 2 (initData 1)).1 := Step.addA (initData 1) 1 2
  have he : (addadmin 1 1 2 (initData 1)).1 = Data.mk [] [1, 2] := by decide
  have hreach : Reachable 1 (Data.mk [] [1, 2]) := Relation.ReflTransGen.single (he ▸ hstep)
  have h := admins_nodup_spec 1 (Data.mk [] [1, 2]) hreach
  exact h.2.2 1 2 (Data.mk [] [1]) (by decide)

end Gv2

namespace Gv2

/-- An oracle along which every external invocation succeeds. -/
def oAllOk : Oracle :=
  { imgCreateOk := true, launchOk := true, running := false, tmateOk := true, tmateStr := "tm" }

/-- Claim C3: a caller who is neither the owner of the record nor an admin is
rejected with an authorization error by `manage` (before the
start/stop/restart/ssh-info panel exists), `deletevps`, `reinstallvps` and
`renewssh`; in each case the registry (hence the VM record) is returned
byte-for-byte unchanged and the emitted external-effect trace is empty. -/
theorem unauthorized_ops_rejected (o : Oracle) (d : Data) (caller : Nat)
    (vid : String) (v : VPSRec) (hv : lookupVps d vid = some v)
    (hown : v.user ≠ toString caller) (hadm : is_admin d caller = false) :
    manage d caller vid = (d, [], ManageRes.notAuthorized) ∧
    deletevps d caller vid = (d, [], DeleteRes.notAuthorized) ∧
    reinstallvps o d caller vid = (d, [], ReinstallRes.notAuthorized) ∧
    renewssh o d caller vid = (d, [], RenewRes.notAuthorized) := by
  have hc : (v.user != toString caller && !is_admin d caller) = true := by
    simp [hown, hadm]
  refine ⟨?_, ?_, ?_, ?_⟩
  · unfold manage
    rw [hv]
    dsimp only
    rw [if_pos hc]
  · unfold deletevps
    rw [hv]
    dsimp only
    rw [if_pos hc]
  · unfold reinstallvps
    rw [hv]
    dsimp only
    rw [if_pos hc]
  · unfold renewssh
    rw [hv]
    dsimp only
    rw [if_pos hc]

/-- Witness for C3: caller 9 is not the owner (user "7") of the only
record of a concrete registry and is not in its admin list; all four
operations reject with the registry unchanged and no effects. -/
theorem unauthorized_ops_rejected_w :
    manage dTwo 9 "1000" = (dTwo, [], ManageRes.notAuthorized) ∧
    deletevps dTwo 9 "1000" = (dTwo, [], DeleteRes.notAuthorized) ∧
    reinstallvps oAllOk dTwo 9 "1000" = (dTwo, [], ReinstallRes.notAuthorized) ∧
    renewssh oAllOk dTwo 9 "1000" = (dTwo, [], RenewRes.notAuthorized) :=
  unauthorized_ops_rejected oAllOk dTwo 9 "1000" (recOfPort 22700)
    (by decide) (by decide) (by decide)

end Gv2

namespace Gv2

theorem lookupVps_mem {d : Data} {vid : String} {v : VPSRec}
    (hv : lookupVps d vid = some v) : (vid, v) ∈ d.vps := by
  unfold lookupVps at hv
  cases hf : d.vps.find? (fun kv => kv.1 == vid) with
  | none => rw [hf] at hv; simp at hv
  | some kv =>
    rw [hf] at hv
    simp only [Option.map_some'] at hv
    injection hv with hv
    have hk := List.find?_some hf
    have hk2 : kv.1 = vid := by simpa using hk
    have hm := List.mem_of_find?_eq_some hf
    have hkv : kv = (vid, v) := by
      cases kv
      simp_all
    rwa [hkv] at hm

theorem find_free_ok_facts {d : Data} {p : Nat} (h : find_free_ssh_port d = Except.ok p) :
    p ∉ usedPorts d ∧ SSH_PORT_MIN ≤ p := by
  obtain ⟨h1, _, h3, _⟩ := scanPorts_some_spec _ _ _ _ (find_free_eq_ok h)
  refine ⟨?_, h1⟩
  intro hmem
  have hc : (usedPorts d).contains p = true := by simpa using hmem
  rw [h3] at hc
  exact Bool.false_ne_true hc

/-- Claim C7: a successful renew-credentials stores a `local_ssh_port`
strictly different from the previous port of the record, and (when no other
record holds the same port, as guaranteed by port uniqueness) the previous
port is no longer in the used-port set of the resulting registry — the
used-port set is computed from current records only, so it is reusable by
the next allocation pass. -/
theorem renewssh_new_port (o : Oracle) (d : Data) (caller : Nat) (vid : String)
    (v : VPSRec) (hv : lookupVps d vid = some v)
    (d2 : Data) (effs : List Effect) (p : Nat)
    (hr : renewssh o d caller vid = (d2, effs, RenewRes.renewed p))
    (hothers : ∀ kv ∈ d.vps, kv.2.local_ssh_port = v.local_ssh_port → kv.1 = vid) :
    p ≠ v.local_ssh_port ∧
    (v.local_ssh_port ≠ 0 → v.local_ssh_port ∉ usedPorts d2) := by
  unfold renewssh at hr
  rw [hv] at hr
  dsimp only at hr
  by_cases ha : (v.user != toString caller && !is_admin d caller) = true
  · rw [if_pos ha] at hr
    injection hr with he1 hr
    injection hr with he2 he3
    exact absurd he3 (fun hc => RenewRes.noConfusion hc)
  · rw [if_neg ha] at hr
    cases hf : find_free_ssh_port d with
    | error e =>
      rw [hf] at hr
      dsimp only at hr
      injection hr with he1 hr
      injection hr with he2 he3
      exact absurd he3 (fun hc => RenewRes.noConfusion hc)
    | ok new_port =>
      rw [hf] at hr
      dsimp only at hr
      by_cases hc1 : (create_vm_process o v.name v.ram_mb v.cpu v.disk_gb new_port).1 = false
      · rw [if_pos hc1] at hr
        injection hr with he1 hr
        injection hr with he2 he3
        exact absurd he3 (fun hc => RenewRes.noConfusion hc)
      · rw [if_neg hc1] at hr
        injection hr with he1 hr
        injection hr with he2 he3
        injection he3 with he3
        subst he3
        subst he1
        obtain ⟨hnp, hmin⟩ := find_free_ok_facts hf
        have hminn : (22700 : Nat) ≤ new_port := hmin
        have hmemv : (vid, v) ∈ d.vps := lookupVps_mem hv
        have hne : new_port ≠ v.local_ssh_port := by
          intro he
          by_cases h0 : v.local_ssh_port = 0
          · omega
          · apply hnp
            rw [he]
            exact (mem_usedPorts d v.local_ssh_port).2 ⟨h0, (vid, v), hmemv, rfl⟩
        refine ⟨hne, fun h0 hmem => ?_⟩
        rw [mem_usedPorts] at hmem
        obtain ⟨-, kv2, hkv2, hport2⟩ := hmem
        unfold updateVps at hkv2
        simp only [List.mem_map] at hkv2
        obtain ⟨kv, hkv, hg⟩ := hkv2
        by_cases hk : (kv.1 == vid) = true
        · rw [if_pos hk] at hg
          subst hg
          exact hne hport2
        · rw [if_neg hk] at hg
          subst hg
          have := hothers kv hkv hport2
          exact hk (by simpa using this)

/-- Witness for C7: on a concrete registry where the owner (user "7",
caller 7) renews VM "1000" holding port 22700, the new port 22702 differs
from 22700 and 22700 is absent from the resulting used-port set. -/
theorem renewssh_new_port_w :
    22702 ≠ (recOfPort 22700).local_ssh_port ∧
    ((recOfPort 22700).local_ssh_port ≠ 0 →
      (recOfPort 22700).local_ssh_port ∉ usedPorts (renewssh oAllOk dTwo 7 "1000").1) := by
  refine renewssh_new_port oAllOk dTwo 7 "1000" (recOfPort 22700) (by decide)
    (renewssh oAllOk dTwo 7 "1000").1 (renewssh oAllOk dTwo 7 "1000").2.1 22702 ?_ (by decide)
  decide

theorem create_vm_process_ok (o : Oracle) (vm_name : String) (ram cpu disk port : Nat)
    (himg : o.imgCreateOk = true) (hl : o.launchOk = true) :
    create_vm_process o vm_name ram cpu disk port =
      (true, [Effect.diskCreate (vm_paths vm_name).qcow disk true,
              Effect.vmLaunch vm_name ram cpu port true],
        "VM launched, logs: " ++ (vm_paths vm_name).log) := by
  unfold create_vm_process
  rw [himg, hl]
  simp

/-- Claim C8: a successful reinstall of an existing record (stored port
nonzero, both external steps succeeding) preserves the id, owner,
resources (ram, cpu, disk size) and `local_ssh_port`, sets its status to
Running, and its external trace replaces only the backing disk file: the
old qcow file is removed and a new disk of the same stored size is created,
then the VM is relaunched on the existing port. -/
theorem reinstallvps_preserves (o : Oracle) (d : Data) (caller : Nat) (vid : String)
    (v : VPSRec) (hv : lookupVps d vid = some v)
    (hauth : (v.user != toString caller && !is_admin d caller) = false)
    (hport : v.local_ssh_port ≠ 0)
    (himg : o.imgCreateOk = true) (hl : o.launchOk = true) :
    ∃ v2 : VPSRec,
      reinstallvps o d caller vid =
        (updateVps d vid v2,
         [Effect.pkill v.name, Effect.removeFile (vm_paths v.name).qcow,
          Effect.diskCreate (vm_paths v.name).qcow v.disk_gb true,
          Effect.vmLaunch v.name v.ram_mb v.cpu v.local_ssh_port true, Effect.save],
         ReinstallRes.reinstalled) ∧
      v2.id = v.id ∧ v2.user = v.user ∧ v2.ram_mb = v.ram_mb ∧ v2.cpu = v.cpu ∧
      v2.disk_gb = v.disk_gb ∧ v2.local_ssh_port = v.local_ssh_port ∧
      v2.status = "Running" := by
  refine ⟨{ v with
      local_ssh := "ssh ubuntu@localhost -p " ++ toString v.local_ssh_port,
      status := "Running" }, ?_, rfl, rfl, rfl, rfl, rfl, rfl, rfl⟩
  unfold reinstallvps
  rw [hv]
  dsimp only
  rw [if_neg (by rw [hauth]; exact Bool.false_ne_true)]
  rw [if_pos (by simpa using hport)]
  dsimp only
  rw [create_vm_process_ok o v.name v.ram_mb v.cpu v.disk_gb v.local_ssh_port himg hl]
  simp

/-- Witness for C8: the owner reinstalls VM "1000" of a concrete registry
with all external steps succeeding; the operation reports success. -/
theorem reinstallvps_preserves_w :
    (reinstallvps oAllOk dTwo 7 "1000").2.2 = ReinstallRes.reinstalled := by
  obtain ⟨v2, heq, -, -, -, -, -, -, -⟩ := reinstallvps_preserves oAllOk dTwo 7 "1000"
    (recOfPort 22700) (by decide) (by decide) (by decide) rfl rfl
  rw [heq]

end Gv2

namespace Gv2

theorem create_vm_process_fst (o : Oracle) (vm_name : String) (ram cpu disk port : Nat) :
    (create_vm_process o vm_name ram cpu disk port).1 = (o.imgCreateOk && o.launchOk) := by
  unfold create_vm_process
  cases himg : o.imgCreateOk <;> cases hl : o.launchOk <;> simp [himg, hl]

theorem create_vm_process_no_save (o : Oracle) (vm_name : String) (ram cpu disk port : Nat) :
    Effect.save ∉ (create_vm_process o vm_name ram cpu disk port).2.1 := by
  unfold create_vm_process
  cases himg : o.imgCreateOk <;> cases hl : o.launchOk <;> simp [himg, hl]

theorem create_vm_process_launch_fail (o : Oracle) (vm_name : String) (ram cpu disk port : Nat)
    (himg : o.imgCreateOk = true) (hl : o.launchOk = false) :
    (create_vm_process o vm_name ram cpu disk port).2.1 =
      [Effect.diskCreate (vm_paths vm_name).qcow disk true,
       Effect.vmLaunch vm_name ram cpu port false] := by
  unfold create_vm_process
  simp [himg, hl]

theorem mem_applyEffect_diskCreate (fs : List String) (p : String) (s : Nat) :
    p ∈ applyEffect fs (Effect.diskCreate p s true) := by
  unfold applyEffect
  dsimp only
  by_cases hc : fs.contains p = true
  · rw [if_pos hc]; simpa using hc
  · rw [if_neg hc]; exact List.mem_cons_self _ _

/-- Claim C5 counterexample: starting a VM whose liveness check reports it
not running performs the disk-image-creation step — the `qemu-img create`
invocation appears in the external trace of `start_cb` — contradicting
that start performs only the VM-launch step. -/
theorem start_cb_cex :
    Effect.diskCreate (vm_paths (recOfPort 22700).name).qcow 10 true ∈
      (start_cb oAllOk dTwo "1000").2.1 := by
  decide

/-- Claim C5 (amended): for every existing VM record, start: if the
liveness check reports a matching VM process running, it marks the record
Running and returns a no-op success; otherwise it reruns the full
create-VM process — the disk-image-creation step followed by the VM-launch
step — with the stored RAM/CPU spec and the existing local port of the record;
when both steps succeed it marks the record Running, and when either step
fails it leaves the registry (hence the stored status) unchanged and
reports the failure. -/
theorem start_cb_spec (o : Oracle) (d : Data) (vid : String) (v : VPSRec)
    (hv : lookupVps d vid = some v) :
    (o.running = true →
      start_cb o d vid =
        (updateVps d vid { v with status := "Running" },
         [Effect.pgrep v.name, Effect.save], StartRes.alreadyRunning)) ∧
    (o.running = false → o.imgCreateOk = true → o.launchOk = true →
      start_cb o d vid =
        (updateVps d vid { v with status := "Running" },
         [Effect.pgrep v.name, Effect.diskCreate (vm_paths v.name).qcow v.disk_gb true,
          Effect.vmLaunch v.name v.ram_mb v.cpu v.local_ssh_port true, Effect.save],
         StartRes.started)) ∧
    (o.running = false → (o.imgCreateOk = false ∨ o.launchOk = false) →
      (start_cb o d vid).1 = d ∧
      (start_cb o d vid).2.2 =
        StartRes.startFailed
          (create_vm_process o v.name v.ram_mb v.cpu v.disk_gb v.local_ssh_port).2.2) := by
  refine ⟨?_, ?_, ?_⟩
  · intro hr
    unfold start_cb
    rw [hv]
    dsimp only
    rw [if_pos hr]
  · intro hr h1 h2
    unfold start_cb
    rw [hv]
    dsimp only
    rw [if_neg (by rw [hr]; exact Bool.false_ne_true)]
    rw [create_vm_process_ok o v.name v.ram_mb v.cpu v.disk_gb v.local_ssh_port h1 h2]
    simp
  · intro hr hfail
    have hcf : (create_vm_process o v.name v.ram_mb v.cpu v.disk_gb v.local_ssh_port).1 = false := by
      rw [create_vm_process_fst]
      rcases hfail with h | h <;> simp [h]
    unfold start_cb
    rw [hv]
    dsimp only
    rw [if_neg (by rw [hr]; exact Bool.false_ne_true)]
    rw [if_pos hcf]
    exact ⟨rfl, rfl⟩

/-- Witness for C5: the owner starts the stopped VM "1000" of a concrete
registry with all external steps succeeding; the full trace (pgrep, disk
creation, launch on the stored port, save) is produced and the record is
marked Running. -/
theorem start_cb_spec_w :
    start_cb oAllOk dTwo "1000" =
      (updateVps dTwo "1000" { recOfPort 22700 with status := "Running" },
       [Effect.pgrep (recOfPort 22700).name,
        Effect.diskCreate (vm_paths (recOfPort 22700).name).qcow (recOfPort 22700).disk_gb true,
        Effect.vmLaunch (recOfPort 22700).name (recOfPort 22700).ram_mb (recOfPort 22700).cpu
          (recOfPort 22700).local_ssh_port true, Effect.save],
       StartRes.started) :=
  (start_cb_spec oAllOk dTwo "1000" (recOfPort 22700) (by decide)).2.1 rfl rfl rfl

/-- The empty registry with admin 1. -/
def dEmpty : Data := { vps := [], admins := [1] }

/-- An oracle along which disk creation succeeds and the VM launch fails. -/
def oLaunchFail : Oracle :=
  { imgCreateOk := true, launchOk := false, running := false, tmateOk := false, tmateStr := "" }

/-- Claim C1 counterexample: a create that fails at the VM-launch step
(after the disk-creation step succeeded) emits no removal of the disk file:
starting from an empty filesystem, the qcow path still exists after the
trace of the failed operation is applied — the disk file is
not cleaned up. -/
theorem createvps_cex :
    createvps oLaunchFail [0] 7 "web" 2048 2 20 "t0" dEmpty =
      some (dEmpty,
        [Effect.diskCreate (vm_paths "web-1000").qcow 20 true,
         Effect.vmLaunch "web-1000" 2048 2 22700 false],
        CreateRes.vmFail "qemu launch failed") ∧
    (vm_paths "web-1000").qcow ∈
      applyEffects [] [Effect.diskCreate (vm_paths "web-1000").qcow 20 true,
                       Effect.vmLaunch "web-1000" 2048 2 22700 false] :=
  ⟨by decide, by decide⟩

/-- Claim C1 (amended): every create that fails before the new record is
persisted (port allocation fails, disk-image creation fails, or VM launch
fails) leaves the VM map and admin set of the registry unchanged and performs no
save, and the allocated id and port are discarded and reusable — the next
port allocation and id generation behave exactly as before the failed
create; however, when the disk-creation step succeeded and the launch then
failed, the partially created disk file is not cleaned up: it remains on
the filesystem after the operation. -/
theorem createvps_failure_no_persist (o : Oracle) (draws : List Nat) (caller : Nat)
    (name : String) (ram cpu disk : Nat) (now : String) (d : Data)
    (t : Data × List Effect × CreateRes)
    (h : createvps o draws caller name ram cpu disk now d = some t) :
    (t.2.2 = CreateRes.noFreePorts → t.1 = d ∧ t.2.1 = []) ∧
    (∀ m, t.2.2 = CreateRes.vmFail m →
      t.1 = d ∧ Effect.save ∉ t.2.1 ∧
      find_free_ssh_port t.1 = find_free_ssh_port d ∧
      (∀ dr : List Nat, gen_vps_id_run (vpsIds t.1) dr = gen_vps_id_run (vpsIds d) dr) ∧
      (o.imgCreateOk = true →
        ∃ p : String, Effect.diskCreate p disk true ∈ t.2.1 ∧
          ∀ fs : List String, p ∈ applyEffects fs t.2.1)) := by
  unfold createvps at h
  cases hg : gen_vps_id_run (vpsIds d) draws with
  | none => rw [hg] at h; simp at h
  | some vid =>
    rw [hg] at h
    simp only [Option.map_some'] at h
    injection h with h
    cases hf : find_free_ssh_port d with
    | error e =>
      rw [hf] at h
      dsimp only at h
      subst h
      exact ⟨fun _ => ⟨rfl, rfl⟩, fun m hm => CreateRes.noConfusion hm⟩
    | ok local_port =>
      rw [hf] at h
      dsimp only at h
      by_cases hc1 : (create_vm_process o (name ++ "-" ++ vid) ram cpu disk local_port).1 = false
      · rw [if_pos hc1] at h
        subst h
        refine ⟨fun hm => CreateRes.noConfusion hm, fun m _ => ?_⟩
        refine ⟨rfl, create_vm_process_no_save _ _ _ _ _ _, hf, fun dr => rfl, ?_⟩
        intro himg
        have hl : o.launchOk = false := by
          have hfst := create_vm_process_fst o (name ++ "-" ++ vid) ram cpu disk local_port
          rw [hc1, himg] at hfst
          cases hlv : o.launchOk
          · rfl
          · rw [hlv] at hfst; exact absurd hfst.symm (by decide)
        refine ⟨(vm_paths (name ++ "-" ++ vid)).qcow, ?_, ?_⟩
        · rw [create_vm_process_launch_fail _ _ _ _ _ _ himg hl]
          exact List.mem_cons_self _ _
        · intro fs
          rw [create_vm_process_launch_fail _ _ _ _ _ _ himg hl]
          unfold applyEffects
          simp only [List.foldl_cons, List.foldl_nil]
          have hvl : applyEffect (applyEffect fs
              (Effect.diskCreate (vm_paths (name ++ "-" ++ vid)).qcow disk true))
              (Effect.vmLaunch (name ++ "-" ++ vid) ram cpu local_port false) =
              applyEffect fs (Effect.diskCreate (vm_paths (name ++ "-" ++ vid)).qcow disk true) := rfl
          rw [hvl]
          exact mem_applyEffect_diskCreate fs _ disk
      · rw [if_neg hc1] at h
        subst h
        exact ⟨fun hm => CreateRes.noConfusion hm, fun m hm => CreateRes.noConfusion hm⟩

/-- Witness for C1: the concrete launch-failed create of an empty registry:
the registry is returned unchanged and no save appears in the trace. -/
theorem createvps_failure_no_persist_w :
    dEmpty = dEmpty ∧
    Effect.save ∉ [Effect.diskCreate (vm_paths "web-1000").qcow 20 true,
                   Effect.vmLaunch "web-1000" 2048 2 22700 false] := by
  have h := createvps_failure_no_persist oLaunchFail [0] 7 "web" 2048 2 20 "t0" dEmpty
    (dEmpty, [Effect.diskCreate (vm_paths "web-1000").qcow 20 true,
              Effect.vmLaunch "web-1000" 2048 2 22700 false],
     CreateRes.vmFail "qemu launch failed") (by decide)
  have h2 := h.2 "qemu launch failed" rfl
  exact ⟨h2.1, h2.2.1⟩

/-- Claim C4 counterexample: with previous contents "old" and new contents
"new", the in-place write of `save_data` exposes the truncated empty file,
an observable state that is neither the old nor the new contents — save is
not implemented as a temporary-path write plus rename and is not atomic
with respect to load. -/
theorem save_data_cex : ¬ AtomicForLoad "old" "new" (save_data_states "old" "new") := by
  intro hA
  rcases hA "" (by simp [save_data_states]) with hc | hc
  · exact absurd hc.symm (by decide)
  · exact absurd hc.symm (by decide)

/-- Claim C4 (amended): `save_data` writes the serialised state directly to
the data file in place — `open(DATA_FILE, "w")` truncates the file, then
`json.dump` writes the new contents; there is no temporary path and no
rename.  For any distinct nonempty old and new contents a reader
interrupting between truncation and write observes a file that is neither,
so save is not atomic with respect to a subsequent load; an uninterrupted
save does end with the new contents as the final file state. -/
theorem save_data_inplace (old new : String) (h1 : old ≠ "") (h2 : new ≠ "") :
    ¬ AtomicForLoad old new (save_data_states old new) ∧
    (save_data_states old new).getLast? = some new := by
  constructor
  · intro hA
    rcases hA "" (by simp [save_data_states]) with hc | hc
    · exact h1 hc.symm
    · exact h2 hc.symm
  · rfl

/-- Witness for C4: instantiated at the distinct nonempty contents "old"
and "new". -/
theorem save_data_inplace_w :
    ¬ AtomicForLoad "old" "new" (save_data_states "old" "new") ∧
    (save_data_states "old" "new").getLast? = some "new" :=
  save_data_inplace "old" "new" (by decide) (by decide)

end Gv2
